import Mathlib

/-!
Verification of the qualest-be CRUD API against its design specification.

The Express route handlers and Mongoose schemas of the repository are given a
shallow embedding as pure Lean functions over in-memory document collections
(`List` of per-entity structures).  Storage-layer behaviors that the handlers
rely on are modelled explicitly:

* `find` with a filter / sort / skip / limit pipeline (`findWindow`,
  `sortDocs`), including the fact that MongoDB rejects a negative skip value;
* case-insensitive `$regex` field tests (`regexTest`);
* `findOneAndUpdate` and `findByIdAndDelete` (`updateFirst`, `removeFirst`);
* reference expansion via `populate` (`populateRefs`);
* the unique indexes declared in the schemas, surfacing as duplicate-key
  failures on insert.

Route handlers are embedded one by one under their route names
(`permissionsList`, `projectsDelete`, `usersGetById`, ...), following the
exact control flow of the JavaScript source, including its treatment of
falsy request fields and the two route modules that reference models they
never import.
-/

namespace Qualest

/-- BSON-style value stored in a document field: the schemas of this
repository only use strings, numeric timestamps and booleans. -/
inductive Value where
  | vstr (s : String)
  | vnum (n : Nat)
  | vbool (b : Bool)
deriving DecidableEq

/-- Total comparison on field values, mirroring the cross-type sort order of
the document store (numbers before strings before booleans). -/
def Value.le : Value → Value → Bool
  | .vnum a, .vnum b => a ≤ b
  | .vnum _, _ => true
  | .vstr _, .vnum _ => false
  | .vstr a, .vstr b => a ≤ b
  | .vstr _, .vbool _ => true
  | .vbool _, .vnum _ => false
  | .vbool _, .vstr _ => false
  | .vbool a, .vbool b => (!a) || b

/-- Comparison lifted to possibly missing fields: a document missing the sort
field sorts first, like a null value in the store. -/
def ovLe : Option Value → Option Value → Bool
  | none, _ => true
  | some _, none => false
  | some a, some b => Value.le a b

/-- Insert an element into a list so that it lands before the first element
it compares below-or-equal to. -/
def insertSorted (le : α → α → Bool) (a : α) : List α → List α
  | [] => [a]
  | b :: l => if le a b then a :: b :: l else b :: insertSorted le a l

/-- Insertion sort by a boolean comparator.  Only the permutation property
of the sort matters to the claims checked here, so the store's sort step is
modelled by this deterministic stable sort. -/
def sortWith (le : α → α → Bool) (l : List α) : List α :=
  l.foldr (insertSorted le) []

/-- Sort a collection by the value of the named field, ascending or
descending; models the `.sort({field: 1 or -1})` step of a find query. -/
def sortDocs (getF : α → String → Option Value) (sortBy : String) (asc : Bool)
    (l : List α) : List α :=
  sortWith (fun a b =>
    if asc then ovLe (getF a sortBy) (getF b sortBy)
    else ovLe (getF b sortBy) (getF a sortBy)) l

/-- Skip and limit applied to an already sorted result list, modelling the
`.skip(n).limit(m)` steps.  MongoDB rejects a negative skip value with a
BadValue error, which each route handler catches as a generic storage
failure; a limit of 0 means no limit. -/
def findWindow (skip : Int) (lim : Nat) (l : List α) : Except String (List α) :=
  if skip < 0 then .error "Skip value must be non-negative"
  else if lim = 0 then .ok (l.drop skip.toNat)
  else .ok ((l.drop skip.toNat).take lim)

/-- Boolean test of whether the first character list is a prefix of the
second. -/
def charsPrefix : List Char → List Char → Bool
  | [], _ => true
  | _ :: _, [] => false
  | a :: l, b :: m => a == b && charsPrefix l m

/-- Boolean test of whether the needle occurs as a contiguous run inside the
haystack. -/
def charsInfix (needle : List Char) : List Char → Bool
  | [] => charsPrefix needle []
  | b :: m => charsPrefix needle (b :: m) || charsInfix needle m

/-- Case-insensitive substring test, modelling a plain-text
`$regex: term, $options: i` match on a string field: both sides are
lowered character-wise and the term is searched as a contiguous run. -/
def strContainsCI (s term : String) : Bool :=
  charsInfix (term.data.map Char.toLower) (s.data.map Char.toLower)

/-- A case-insensitive `$regex` test against a document field: only string
fields can match; a missing or non-string field matches no term (the store
treats that as zero matches, not an error). -/
def regexTest (term : String) : Option Value → Bool
  | some (.vstr s) => strContainsCI s term
  | _ => false

/-- JavaScript truthiness of an optional string request field: absent and
empty-string values are falsy. -/
def truthyStr : Option String → Bool
  | none => false
  | some s => !(s == "")

/-- Update the first document matching the predicate, returning the updated
document (if any) and the new collection; models `findOneAndUpdate` with
`new: true` (document ids are unique, so at most one document matches). -/
def updateFirst (p : α → Bool) (f : α → α) : List α → Option α × List α
  | [] => (none, [])
  | a :: l =>
    if p a then (some (f a), f a :: l)
    else
      let r := updateFirst p f l
      (r.1, a :: r.2)

/-- Remove the first document matching the predicate, returning the removed
document (if any) and the remaining collection; models `findByIdAndDelete`. -/
def removeFirst (p : α → Bool) : List α → Option α × List α
  | [] => (none, [])
  | a :: l =>
    if p a then (some a, l)
    else
      let r := removeFirst p l
      (r.1, a :: r.2)

/-- Worker for `setDedup`: walk the list keeping only elements not already
seen, accumulating the seen ones. -/
def setDedupAux (seen : List String) : List String → List String
  | [] => []
  | a :: l => if a ∈ seen then setDedupAux seen l else a :: setDedupAux (a :: seen) l

/-- Spread of a JavaScript Set built from a list of strings
(`[...new Set(l)]`): keeps the first occurrence of each element, in first
appearance order. -/
def setDedup (l : List String) : List String := setDedupAux [] l

/-- PermissionSchema (src/unnamed/part_005): key and name carry unique
indexes, description is required, isDeleted defaults to false.  Document ids
are modelled as naturals. -/
structure Permission where
  id : Nat
  key : String
  name : String
  description : String
  isDeleted : Bool
  createdAt : Nat
  updatedAt : Nat
deriving DecidableEq

def Permission.getField (p : Permission) : String → Option Value
  | "_id" => some (.vnum p.id)
  | "key" => some (.vstr p.key)
  | "name" => some (.vstr p.name)
  | "description" => some (.vstr p.description)
  | "isDeleted" => some (.vbool p.isDeleted)
  | "createdAt" => some (.vnum p.createdAt)
  | "updatedAt" => some (.vnum p.updatedAt)
  | _ => none

/-- ProjectSchema (src/models/Project.js): name and description plus manual
created_at / updated_at timestamps; the schema declares no isDeleted field,
no timestamps option and no update middleware. -/
structure Project where
  id : Nat
  name : String
  description : String
  created_at : Nat
  updated_at : Nat
deriving DecidableEq

def Project.getField (p : Project) : String → Option Value
  | "_id" => some (.vnum p.id)
  | "name" => some (.vstr p.name)
  | "description" => some (.vstr p.description)
  | "created_at" => some (.vnum p.created_at)
  | "updated_at" => some (.vnum p.updated_at)
  | _ => none

/-- TestPlanSchema: fields of src/models/TestPlan.js (name, description,
project_id, created_by, steps, timestamps) together with the isDeleted flag
of the revised schema (src/unnamed/part_003) that the paginated list and
soft-delete routes in src/routes/testPlans.js rely on. -/
structure TestPlan where
  id : Nat
  name : String
  description : String
  project_id : Nat
  created_by : Option Nat
  steps : List Nat
  isDeleted : Bool
  created_at : Nat
  updated_at : Nat
deriving DecidableEq

def TestPlan.getField (t : TestPlan) : String → Option Value
  | "_id" => some (.vnum t.id)
  | "name" => some (.vstr t.name)
  | "description" => some (.vstr t.description)
  | "project_id" => some (.vnum t.project_id)
  | "isDeleted" => some (.vbool t.isDeleted)
  | "created_at" => some (.vnum t.created_at)
  | "updated_at" => some (.vnum t.updated_at)
  | _ => none

/-- TestStepSchema (src/models/TestStep.js). -/
structure TestStep where
  id : Nat
  name : String
  description : String
  expected_result : String
  test_plan_id : Nat
  isDeleted : Bool
  created_at : Nat
  updated_at : Nat
deriving DecidableEq

def TestStep.getField (t : TestStep) : String → Option Value
  | "_id" => some (.vnum t.id)
  | "name" => some (.vstr t.name)
  | "description" => some (.vstr t.description)
  | "expected_result" => some (.vstr t.expected_result)
  | "test_plan_id" => some (.vnum t.test_plan_id)
  | "isDeleted" => some (.vbool t.isDeleted)
  | "created_at" => some (.vnum t.created_at)
  | "updated_at" => some (.vnum t.updated_at)
  | _ => none

/-- RoleSchema (src/models/Role.js): unique name and key, a list of
Permission references, isDeleted flag and createdAt / updatedAt
timestamps. -/
structure Role where
  id : Nat
  name : String
  key : String
  isDeleted : Bool
  createdAt : Nat
  updatedAt : Nat
  permissions : List Nat
deriving DecidableEq

/-- UserSchema (src/models/User.js): unique email, a list of Role
references, provider enum kept as a plain string, isDeleted flag and
created_at / updated_at timestamps. -/
structure User where
  id : Nat
  name : String
  email : String
  password : Option String
  roles : List Nat
  provider : String
  oauth_id : Option String
  isDeleted : Bool
  created_at : Nat
  updated_at : Nat
deriving DecidableEq

def User.getField (u : User) : String → Option Value
  | "_id" => some (.vnum u.id)
  | "name" => some (.vstr u.name)
  | "email" => some (.vstr u.email)
  | "provider" => some (.vstr u.provider)
  | "isDeleted" => some (.vbool u.isDeleted)
  | "created_at" => some (.vnum u.created_at)
  | "updated_at" => some (.vnum u.updated_at)
  | _ => none

/-- Reference expansion: map each id of a reference array to the referenced
document, dropping ids that resolve to nothing; models `populate` on an
array of ObjectId references. -/
def populateRefs (coll : List α) (getId : α → Nat) (ids : List Nat) : List α :=
  ids.filterMap (fun i => coll.find? (fun d => getId d == i))

/-- Result of a route handler: an HTTP status with a body on success, or an
HTTP status with an error message on failure. -/
inductive Outcome (α : Type) where
  | success (status : Nat) (body : α)
  | failure (status : Nat) (msg : String)
deriving DecidableEq

/-- The uniform pagination envelope `{total, page, totalPages, items}`
returned by the paginated list routes; `items` stands for the entity-named
array (`permissions`, `testPlans`, ...) of the wire format. -/
structure Envelope (α : Type) where
  total : Nat
  page : Int
  totalPages : Nat
  items : List α
deriving DecidableEq

/-- Math.ceil(total / limit) as computed by the list handlers.  Meaningful
for limit ≥ 1; a JavaScript limit of 0 would give Infinity, which has no
counterpart on naturals, so that case is mapped to 0 and every theorem
about totalPages assumes limit ≥ 1. -/
def ceilPages (total limit : Nat) : Nat :=
  if limit = 0 then 0 else (total + limit - 1) / limit

/-- Query parameters of GET /api/permissions (src/routes/permissions.js,
list route).  Handler defaults: page 1, limit 10, order "asc",
deleted false. -/
structure PermsListReq where
  page : Int
  limit : Nat
  sortBy : Option String
  order : String
  filterBy : Option String
  filterTerm : Option String
  deleted : Bool
deriving DecidableEq

/-- Pagination offset of the permissions list route:
`const skip = (page - 1) * limit`, computed with no clamping. -/
def permissionsSkip (page : Int) (limit : Nat) : Int :=
  (page - 1) * limit

/-- Filter object built by the permissions list route: a case-insensitive
regex clause when filterBy and filterTerm are both given, and
`isDeleted = false` unless the deleted flag is set. -/
def permsFilter (req : PermsListReq) (p : Permission) : Bool :=
  (if truthyStr req.filterBy && truthyStr req.filterTerm then
    regexTest (req.filterTerm.getD "") (p.getField (req.filterBy.getD ""))
  else true)
  && (if !req.deleted then p.isDeleted == false else true)

/-- Sort step of the permissions list route:
`sortBy ? {[sortBy]: order === asc ? 1 : -1} : {createdAt: 1}`. -/
def permsSorted (req : PermsListReq) (fl : List Permission) : List Permission :=
  if truthyStr req.sortBy then
    sortDocs Permission.getField (req.sortBy.getD "") (req.order == "asc") fl
  else
    sortDocs Permission.getField "createdAt" true fl

/-- GET /api/permissions (src/routes/permissions.js lines 130-161): count
the documents matching the filter, fetch the sorted skip/limit window, and
wrap both in the pagination envelope; a storage failure is caught and
returned as a 500. -/
def permissionsList (req : PermsListReq) (coll : List Permission) :
    Outcome (Envelope Permission) :=
  match findWindow (permissionsSkip req.page req.limit) req.limit
      (permsSorted req (coll.filter (permsFilter req))) with
  | .error e => .failure 500 e
  | .ok items =>
    .success 200 ⟨(coll.filter (permsFilter req)).length, req.page,
      ceilPages (coll.filter (permsFilter req)).length req.limit, items⟩

/-- GET /api/permissions/:id (src/routes/permissions.js lines 226-242):
fetch by id and return 404 when the document is absent or soft-deleted. -/
def permissionsGetById (coll : List Permission) (id : Nat) : Outcome Permission :=
  match coll.find? (fun p => p.id == id) with
  | none => .failure 404 "Permission not found"
  | some p =>
    if p.isDeleted then .failure 404 "Permission not found"
    else .success 200 p

/-- Body of POST /api/permissions. -/
structure PermCreateReq where
  key : Option String
  name : Option String
  description : Option String
deriving DecidableEq

/-- POST /api/permissions (src/routes/permissions.js lines 322-344): reject
falsy key or name with a 400; `permission.save()` then runs the required
validator on description (a schema validation error has no duplicate code
and falls into the generic 500 branch) and the insert hits the unique
indexes on key and name, whose violation (error code 11000) the handler
maps to the 400 duplicate response.  The pair returned is the response and
the collection after the call. -/
def permissionsCreate (now : Nat) (newId : Nat) (req : PermCreateReq)
    (coll : List Permission) : Outcome Permission × List Permission :=
  if !(truthyStr req.key) || !(truthyStr req.name) then
    (.failure 400 "Key and name are required", coll)
  else if !(truthyStr req.description) then
    (.failure 500 "Permission validation failed: description: Path description is required.", coll)
  else
    let k := req.key.getD ""
    let n := req.name.getD ""
    if coll.any (fun p => p.key == k || p.name == n) then
      (.failure 400 "Permission key and name must be unique", coll)
    else
      let doc : Permission := ⟨newId, k, n, req.description.getD "", false, now, now⟩
      (.success 201 doc, coll ++ [doc])

/-- Body of PUT /api/permissions/:id. -/
structure PermUpdateReq where
  key : Option String
  name : Option String
  description : Option String
deriving DecidableEq

/-- PUT /api/permissions/:id (src/routes/permissions.js lines 450-488):
require at least one field, build the update object with
`updatedAt = Date.now()`, and run `findOneAndUpdate`; a unique-index
violation (another document already holding the new key or name) surfaces
as error code 11000, mapped to the 400 duplicate response. -/
def permissionsUpdate (now : Nat) (id : Nat) (req : PermUpdateReq)
    (coll : List Permission) : Outcome Permission × List Permission :=
  if !(truthyStr req.key) && !(truthyStr req.name) && !(truthyStr req.description) then
    (.failure 400 "At least one field (key, name, or description) must be provided", coll)
  else if coll.any (fun q => !(q.id == id) &&
      ((truthyStr req.key && (q.key == req.key.getD "")) ||
       (truthyStr req.name && (q.name == req.name.getD "")))) then
    (.failure 400 "Duplicate key or name", coll)
  else
    match updateFirst (fun p => p.id == id) (fun p =>
        ⟨p.id,
         if truthyStr req.key then req.key.getD "" else p.key,
         if truthyStr req.name then req.name.getD "" else p.name,
         if truthyStr req.description then req.description.getD "" else p.description,
         p.isDeleted, p.createdAt, now⟩) coll with
  | (none, l) => (.failure 404 "Permission not found", l)
  | (some p, l) => (.success 200 p, l)

/-- DELETE /api/permissions/:id (src/routes/permissions.js lines 571-594):
`findOneAndUpdate({_id: id}, {isDeleted: true, updatedAt: Date.now()})` —
a soft delete that leaves the document in the collection. -/
def permissionsDelete (now : Nat) (id : Nat) (coll : List Permission) :
    Outcome Permission × List Permission :=
  match updateFirst (fun p => p.id == id)
      (fun p => ⟨p.id, p.key, p.name, p.description, true, p.createdAt, now⟩) coll with
  | (none, l) => (.failure 404 "Permission not found", l)
  | (some p, l) => (.success 200 p, l)

/-- Query parameters of GET /api/projects (src/unnamed/part_000).  Handler
defaults: page 1, limit 10; name and description act as per-field filters. -/
structure ProjListReq where
  page : Int
  limit : Nat
  name : Option String
  description : Option String
  sortBy : Option String
  order : String
deriving DecidableEq

/-- Filter object of the projects list route: case-insensitive regex
clauses on name and description when given.  The route adds no isDeleted
clause. -/
def projectsFilter (req : ProjListReq) (p : Project) : Bool :=
  (if truthyStr req.name then
    regexTest (req.name.getD "") (some (.vstr p.name))
  else true)
  && (if truthyStr req.description then
    regexTest (req.description.getD "") (some (.vstr p.description))
  else true)

/-- Sort step of the projects list route:
`sortBy ? {[sortBy]: order === desc ? -1 : 1} : {createdAt: 1}`. -/
def projectsSorted (req : ProjListReq) (fl : List Project) : List Project :=
  if truthyStr req.sortBy then
    sortDocs Project.getField (req.sortBy.getD "") (!(req.order == "desc")) fl
  else
    sortDocs Project.getField "createdAt" true fl

/-- GET /api/projects (src/unnamed/part_000 lines 85-118): filter on name
and description only, fetch the sorted skip/limit window, count the
matching documents, and wrap everything in the pagination envelope. -/
def projectsList (req : ProjListReq) (coll : List Project) :
    Outcome (Envelope Project) :=
  match findWindow (permissionsSkip req.page req.limit) req.limit
      (projectsSorted req (coll.filter (projectsFilter req))) with
  | .error e => .failure 500 e
  | .ok items =>
    .success 200 ⟨(coll.filter (projectsFilter req)).length, req.page,
      ceilPages (coll.filter (projectsFilter req)).length req.limit, items⟩

/-- GET /api/projects/:id (src/unnamed/part_000 lines 280-299): fetch by id
with no isDeleted condition. -/
def projectsGetById (coll : List Project) (id : Nat) : Outcome Project :=
  match coll.find? (fun p => p.id == id) with
  | none => .failure 404 "Project not found"
  | some p => .success 200 p

/-- Body of PUT /api/projects/:id: the handler passes `req.body` straight to
`findByIdAndUpdate`, so only the supplied schema fields are set. -/
structure ProjUpdateReq where
  name : Option String
  description : Option String
deriving DecidableEq

/-- PUT /api/projects/:id (src/unnamed/part_000 lines 362-376):
`findByIdAndUpdate(id, updates, {new: true})`.  The handler adds no
timestamp to the update object, the schema has no timestamps option, and
update queries run no save middleware, so updated_at is left as stored. -/
def projectsUpdate (id : Nat) (req : ProjUpdateReq) (coll : List Project) :
    Outcome Project × List Project :=
  match updateFirst (fun p => p.id == id)
      (fun p => ⟨p.id,
        if truthyStr req.name then req.name.getD "" else p.name,
        if truthyStr req.description then req.description.getD "" else p.description,
        p.created_at, p.updated_at⟩) coll with
  | (none, l) => (.failure 404 "Project not found", l)
  | (some p, l) => (.success 200 p, l)

/-- DELETE /api/projects/:id (src/unnamed/part_000 lines 395-408):
`findByIdAndDelete(id)` — a hard delete that removes the document from the
collection. -/
def projectsDelete (id : Nat) (coll : List Project) :
    Outcome String × List Project :=
  match removeFirst (fun p => p.id == id) coll with
  | (none, l) => (.failure 404 "Project not found", l)
  | (some _, l) => (.success 200 "Project deleted successfully", l)

/-- Body of POST /api/test-plans. -/
structure TPCreateReq where
  name : Option String
  description : Option String
  project_id : Option Nat
  created_by : Option Nat
  steps : Option (List Nat)
deriving DecidableEq

/-- POST /api/test-plans (src/routes/testPlans.js lines 116-154): require
name and project_id, check that project_id resolves via
`Project.findById` (existence only — the isDeleted state of the referent is
not consulted), then validate created_by when supplied.  The module imports
only the TestPlan and Project models, so the `User.findById(created_by)`
call throws a ReferenceError, which the catch block turns into a generic
500 before any document is written. -/
def testPlansCreate (now : Nat) (newId : Nat) (req : TPCreateReq)
    (projects : List Project) (coll : List TestPlan) :
    Outcome TestPlan × List TestPlan :=
  if !(truthyStr req.name) || req.project_id == none then
    (.failure 400 "Name and project ID are required", coll)
  else
    let pid := req.project_id.getD 0
    match projects.find? (fun p => p.id == pid) with
    | none => (.failure 400 "Invalid project ID", coll)
    | some _ =>
      match req.created_by with
      | some _ => (.failure 500 "User is not defined", coll)
      | none =>
        let doc : TestPlan :=
          ⟨newId, req.name.getD "", req.description.getD "", pid, none,
           req.steps.getD [], false, now, now⟩
        (.success 201 doc, coll ++ [doc])

/-- Query parameters shared by the paginated list routes of test plans,
test steps and users: page (default 1), limit (default 10), a sortBy field
defaulted to created_at, order (default "asc"), and an optional field
filter. -/
structure PagedReq where
  page : Int
  limit : Nat
  sortBy : String
  order : String
  filterBy : Option String
  filterTerm : Option String
deriving DecidableEq

/-- Filter object of the test plans list route: always `isDeleted: false`,
plus a case-insensitive regex clause when filterBy and filterTerm are both
given. -/
def tpFilter (req : PagedReq) (t : TestPlan) : Bool :=
  (t.isDeleted == false)
  && (if truthyStr req.filterBy && truthyStr req.filterTerm then
    regexTest (req.filterTerm.getD "") (t.getField (req.filterBy.getD ""))
  else true)

/-- GET /api/test-plans (src/routes/testPlans.js lines 452-486): filter out
soft-deleted plans, count, fetch the sorted skip/limit window, populate
project_id with the referenced project, and wrap in the envelope. -/
def testPlansList (req : PagedReq) (coll : List TestPlan)
    (projects : List Project) : Outcome (Envelope (TestPlan × Option Project)) :=
  match findWindow (permissionsSkip req.page req.limit) req.limit
      (sortDocs TestPlan.getField req.sortBy (!(req.order == "desc"))
        (coll.filter (tpFilter req))) with
  | .error e => .failure 500 e
  | .ok window =>
    .success 200 ⟨(coll.filter (tpFilter req)).length, req.page,
      ceilPages (coll.filter (tpFilter req)).length req.limit,
      window.map (fun t => (t, projects.find? (fun p => p.id == t.project_id)))⟩

/-- GET /api/test-plans/:id (src/routes/testPlans.js lines 575-593):
`findOne({_id: id, isDeleted: false})` populated with the project. -/
def testPlansGetById (coll : List TestPlan) (projects : List Project)
    (id : Nat) : Outcome (TestPlan × Option Project) :=
  match coll.find? (fun t => t.id == id && t.isDeleted == false) with
  | none => .failure 404 "Test plan not found"
  | some t => .success 200 (t, projects.find? (fun p => p.id == t.project_id))

/-- DELETE /api/test-plans/:id (src/routes/testPlans.js lines 827-852):
`findByIdAndUpdate(id, {isDeleted: true, updated_at: Date.now()})` — a soft
delete. -/
def testPlansDelete (now : Nat) (id : Nat) (coll : List TestPlan) :
    Outcome TestPlan × List TestPlan :=
  match updateFirst (fun t => t.id == id)
      (fun t => ⟨t.id, t.name, t.description, t.project_id, t.created_by,
        t.steps, true, t.created_at, now⟩) coll with
  | (none, l) => (.failure 404 "Test plan not found", l)
  | (some t, l) => (.success 200 t, l)

/-- Filter object of the test steps list route: always `isDeleted: false`,
plus a case-insensitive regex clause when filterBy and filterTerm are both
given. -/
def tsFilter (req : PagedReq) (t : TestStep) : Bool :=
  (t.isDeleted == false)
  && (if truthyStr req.filterBy && truthyStr req.filterTerm then
    regexTest (req.filterTerm.getD "") (t.getField (req.filterBy.getD ""))
  else true)

/-- GET /api/test-steps (src/unnamed/part_001 lines 247-279): filter out
soft-deleted steps, count, fetch the sorted skip/limit window, populate
test_plan_id, and wrap in the envelope. -/
def testStepsList (req : PagedReq) (coll : List TestStep)
    (plans : List TestPlan) : Outcome (Envelope (TestStep × Option TestPlan)) :=
  match findWindow (permissionsSkip req.page req.limit) req.limit
      (sortDocs TestStep.getField req.sortBy (!(req.order == "desc"))
        (coll.filter (tsFilter req))) with
  | .error e => .failure 500 e
  | .ok window =>
    .success 200 ⟨(coll.filter (tsFilter req)).length, req.page,
      ceilPages (coll.filter (tsFilter req)).length req.limit,
      window.map (fun t => (t, plans.find? (fun p => p.id == t.test_plan_id)))⟩

/-- DELETE /api/test-steps/:id (src/unnamed/part_001 lines 604-628):
`findOneAndUpdate({_id: id, isDeleted: false}, {isDeleted: true,
updated_at: Date.now()})` — a soft delete that only targets a not yet
deleted step. -/
def testStepsDelete (now : Nat) (id : Nat) (coll : List TestStep) :
    Outcome TestStep × List TestStep :=
  match updateFirst (fun t => t.id == id && t.isDeleted == false)
      (fun t => ⟨t.id, t.name, t.description, t.expected_result,
        t.test_plan_id, true, t.created_at, now⟩) coll with
  | (none, l) => (.failure 404 "Test step not found", l)
  | (some t, l) => (.success 200 t, l)

/-- Body of POST /api/roles. -/
structure RoleCreateReq where
  name : Option String
  key : Option String
  description : Option String
  permissions : Option (List Nat)
deriving DecidableEq

/-- POST /api/roles (src/unnamed/part_002 lines 97-126): require name, key,
description and a non-empty permissions array; validate the references by
fetching `Permission.find({_id: {$in: permissions}})` — an existence check
with no isDeleted clause — and reject when the number of documents found
differs from the number of ids sent; reject a duplicate role name or key;
otherwise save the role (the schema has no description field, so the
description from the body is dropped by the model). -/
def rolesCreate (now : Nat) (newId : Nat) (req : RoleCreateReq)
    (permColl : List Permission) (coll : List Role) : Outcome Role × List Role :=
  if !(truthyStr req.name) || !(truthyStr req.key) || !(truthyStr req.description)
      || req.permissions == none || (req.permissions.getD []).isEmpty then
    (.failure 400 "Name, key, description, and permissions are required", coll)
  else
    let ids := req.permissions.getD []
    let permissionDocs := permColl.filter (fun d => ids.contains d.id)
    if !(permissionDocs.length == ids.length) then
      (.failure 400 "Invalid permissions provided", coll)
    else if coll.any (fun r => r.name == req.name.getD "" || r.key == req.key.getD "") then
      (.failure 400 "Role name or key already exists", coll)
    else
      let doc : Role := ⟨newId, req.name.getD "", req.key.getD "", false, now, now,
        req.permissions.getD []⟩
      (.success 201 doc, coll ++ [doc])

/-- GET /api/roles (src/routes/roles.js lines 110-117):
`Role.find().populate(permissions)` — every role in the collection is
returned, with its permission references expanded; the route applies no
filter at all, in particular no isDeleted clause. -/
def rolesList (roleColl : List Role) (permColl : List Permission) :
    Outcome (List (Role × List Permission)) :=
  .success 200 (roleColl.map (fun r => (r, populateRefs permColl Permission.id r.permissions)))

/-- DELETE /api/roles/:id (src/unnamed/part_001 lines 1206-1229):
`findOneAndUpdate({_id: id}, {isDeleted: true, updatedAt: Date.now()})` —
a soft delete. -/
def rolesDelete (now : Nat) (id : Nat) (coll : List Role) :
    Outcome Role × List Role :=
  match updateFirst (fun r => r.id == id)
      (fun r => ⟨r.id, r.name, r.key, true, r.createdAt, now, r.permissions⟩) coll with
  | (none, l) => (.failure 404 "Role not found", l)
  | (some r, l) => (.success 200 r, l)

/-- A user detail response: the user document with its roles expanded to
role documents, each carrying its expanded permission documents, plus the
computed effectivePermissions array. -/
structure UserDetail where
  user : User
  roles : List (Role × List Permission)
  effectivePermissions : List String
deriving DecidableEq

/-- GET /api/users/:id (src/unnamed/part_004 lines 215-245): fetch the user
by id, populate roles and within each role its permissions, compute
`user.roles.flatMap(role => role.permissions.map(perm => perm.key))` and
deduplicate it with `[...new Set(...)]`. -/
def usersGetById (users : List User) (roleColl : List Role)
    (permColl : List Permission) (id : Nat) : Outcome UserDetail :=
  match users.find? (fun u => u.id == id) with
  | none => .failure 404 "User not found"
  | some u =>
    let popRoles := (populateRefs roleColl Role.id u.roles).map
      (fun r => (r, populateRefs permColl Permission.id r.permissions))
    let effectivePermissions :=
      popRoles.flatMap (fun rp => rp.2.map (fun perm => perm.key))
    .success 200 ⟨u, popRoles, setDedup effectivePermissions⟩

/-- Body of PUT /api/users/:id. -/
structure UserUpdateReq where
  name : Option String
  email : Option String
  roles : Option (List Nat)
  provider : Option String
deriving DecidableEq

/-- PUT /api/users/:id (src/unnamed/part_004 lines 474-520): require at
least one field, then validate the roles array when supplied.  The module
imports only the User model, so the `Role.find({_id: {$in: roles}})` call
throws a ReferenceError, which the catch block turns into a generic 500
before any write; with no roles field the update object (including
`updated_at = Date.now()`) is applied through
`findOneAndUpdate({_id: id, isDeleted: false})`.  The unique index on
email is not modelled here: no claim exercises the email path. -/
def usersUpdate (now : Nat) (id : Nat) (req : UserUpdateReq)
    (coll : List User) : Outcome User × List User :=
  if !(truthyStr req.name) && !(truthyStr req.email) && req.roles == none
      && !(truthyStr req.provider) then
    (.failure 400 "At least one field must be provided for update", coll)
  else
    match req.roles with
    | some _ => (.failure 500 "Role is not defined", coll)
    | none =>
      match updateFirst (fun u => u.id == id && u.isDeleted == false)
          (fun u => ⟨u.id,
            if truthyStr req.name then req.name.getD "" else u.name,
            if truthyStr req.email then req.email.getD "" else u.email,
            u.password, u.roles,
            if truthyStr req.provider then req.provider.getD "" else u.provider,
            u.oauth_id, u.isDeleted, u.created_at, now⟩) coll with
      | (none, l) => (.failure 404 "User not found", l)
      | (some u, l) => (.success 200 u, l)

/-- DELETE /api/users/:id (src/unnamed/part_004 lines 558-587): soft delete
or undelete.  The filter targets `{_id: id, isDeleted: undelete}` and the
update sets isDeleted to the opposite flag together with
`updated_at = Date.now()`. -/
def usersDelete (now : Nat) (id : Nat) (undelete : Bool) (coll : List User) :
    Outcome String × List User :=
  match updateFirst (fun u => u.id == id && u.isDeleted == undelete)
      (fun u => ⟨u.id, u.name, u.email, u.password, u.roles, u.provider,
        u.oauth_id, !undelete, u.created_at, now⟩) coll with
  | (none, l) => (.failure 404 "User not found", l)
  | (some _, l) =>
    (.success 200 (if undelete then "User undeleted successfully"
      else "User soft deleted successfully"), l)

/-- Sample collections exercising the user-detail read: Bob holds the Admin
role (permissions p1, p2) and the Viewer role (permissions p2, p3). -/
def sampleUsers : List User :=
  [⟨1, "Bob", "bob", none, [10, 11], "local", none, false, 0, 0⟩]

/-- Sample roles for the user-detail read. -/
def sampleRoles : List Role :=
  [⟨10, "Admin", "ADM", false, 0, 0, [100, 101]⟩,
   ⟨11, "Viewer", "VWR", false, 0, 0, [101, 102]⟩]

/-- Sample permissions for the user-detail read. -/
def samplePerms : List Permission :=
  [⟨100, "p1", "P1", "d1", false, 0, 0⟩, ⟨101, "p2", "P2", "d2", false, 0, 0⟩,
   ⟨102, "p3", "P3", "d3", false, 0, 0⟩]

/-- The detail document the user-detail read produces on the sample data:
both roles expanded, and effective permissions [p1, p2, p3] with p2
collapsed to one occurrence. -/
def sampleDetail : UserDetail :=
  ⟨⟨1, "Bob", "bob", none, [10, 11], "local", none, false, 0, 0⟩,
   [(⟨10, "Admin", "ADM", false, 0, 0, [100, 101]⟩,
     [⟨100, "p1", "P1", "d1", false, 0, 0⟩, ⟨101, "p2", "P2", "d2", false, 0, 0⟩]),
    (⟨11, "Viewer", "VWR", false, 0, 0, [101, 102]⟩,
     [⟨101, "p2", "P2", "d2", false, 0, 0⟩, ⟨102, "p3", "P3", "d3", false, 0, 0⟩])],
   ["p1", "p2", "p3"]⟩

theorem length_insertSorted (le : α → α → Bool) (a : α) :
    ∀ l : List α, (insertSorted le a l).length = l.length + 1 := by
  intro l
  induction l with
  | nil => rfl
  | cons b l ih =>
    unfold insertSorted
    split
    · simp
    · simp [ih]

theorem mem_insertSorted (le : α → α → Bool) (a x : α) :
    ∀ l : List α, x ∈ insertSorted le a l ↔ x = a ∨ x ∈ l := by
  intro l
  induction l with
  | nil => simp [insertSorted]
  | cons b l ih =>
    unfold insertSorted
    split
    · simp [List.mem_cons]
    · simp only [List.mem_cons, ih]
      tauto

theorem length_sortWith (le : α → α → Bool) :
    ∀ l : List α, (sortWith le l).length = l.length := by
  intro l
  induction l with
  | nil => rfl
  | cons b l ih =>
    show (insertSorted le b (sortWith le l)).length = l.length + 1
    rw [length_insertSorted, ih]

theorem mem_sortWith (le : α → α → Bool) (x : α) :
    ∀ l : List α, x ∈ sortWith le l ↔ x ∈ l := by
  intro l
  induction l with
  | nil => simp [sortWith]
  | cons b l ih =>
    show x ∈ insertSorted le b (sortWith le l) ↔ x ∈ b :: l
    rw [mem_insertSorted, List.mem_cons, ih]

theorem length_sortDocs (getF : α → String → Option Value) (sortBy : String)
    (asc : Bool) (l : List α) : (sortDocs getF sortBy asc l).length = l.length := by
  unfold sortDocs
  exact length_sortWith _ l

theorem mem_sortDocs {getF : α → String → Option Value} {sortBy : String}
    {asc : Bool} {l : List α} {x : α} :
    x ∈ sortDocs getF sortBy asc l ↔ x ∈ l := by
  unfold sortDocs
  exact mem_sortWith _ x l

theorem findWindow_ok {skip : Int} (h : 0 ≤ skip) {lim : Nat} (hl : 1 ≤ lim)
    (l : List α) : findWindow skip lim l = .ok ((l.drop skip.toNat).take lim) := by
  unfold findWindow
  rw [if_neg (by omega), if_neg (by omega)]

theorem findWindow_neg {skip : Int} (h : skip < 0) (lim : Nat) (l : List α) :
    findWindow skip lim l = .error "Skip value must be non-negative" := by
  unfold findWindow
  rw [if_pos h]

theorem mem_of_findWindow_ok {skip : Int} {lim : Nat} {l items : List α} {x : α}
    (h : findWindow skip lim l = .ok items) (hx : x ∈ items) : x ∈ l := by
  unfold findWindow at h
  split at h
  · cases h
  · split at h
    · cases h
      exact List.drop_subset _ _ hx
    · cases h
      exact List.drop_subset _ _ (List.take_subset _ _ hx)

theorem updateFirst_length (p : α → Bool) (f : α → α) :
    ∀ l : List α, (updateFirst p f l).2.length = l.length := by
  intro l
  induction l with
  | nil => rfl
  | cons a l ih =>
    unfold updateFirst
    split
    · simp
    · simpa using ih

theorem updateFirst_found (p : α → Bool) (f : α → α) :
    ∀ l : List α, l.any p = true →
      ∃ a, a ∈ l ∧ p a = true ∧ (updateFirst p f l).1 = some (f a) ∧
        f a ∈ (updateFirst p f l).2 := by
  intro l
  induction l with
  | nil => intro h; cases h
  | cons a l ih =>
    intro h
    by_cases hpa : p a = true
    · refine ⟨a, List.mem_cons_self a l, hpa, ?_, ?_⟩
      · unfold updateFirst; rw [if_pos hpa]
      · unfold updateFirst; rw [if_pos hpa]; exact List.mem_cons_self _ _
    · have hl : l.any p = true := by
        simp only [List.any_cons, Bool.or_eq_true] at h
        rcases h with h | h
        · exact absurd h hpa
        · exact h
      obtain ⟨b, hb, hpb, h1, h2⟩ := ih hl
      refine ⟨b, List.mem_cons_of_mem a hb, hpb, ?_, ?_⟩
      · unfold updateFirst; rw [if_neg hpa]; exact h1
      · unfold updateFirst; rw [if_neg hpa]; exact List.mem_cons_of_mem a h2

theorem updateFirst_not_found (p : α → Bool) (f : α → α) :
    ∀ l : List α, l.any p = false → updateFirst p f l = (none, l) := by
  intro l
  induction l with
  | nil => intro _; rfl
  | cons a l ih =>
    intro h
    simp only [List.any_cons, Bool.or_eq_false_iff] at h
    unfold updateFirst
    rw [if_neg (by simp [h.1]), ih h.2]

theorem updateFirst_map_invariant (p : α → Bool) (f : α → α) (g : α → β)
    (hg : ∀ a, g (f a) = g a) :
    ∀ l : List α, (updateFirst p f l).2.map g = l.map g := by
  intro l
  induction l with
  | nil => rfl
  | cons a l ih =>
    unfold updateFirst
    split
    · simp [hg]
    · simpa using ih

theorem removeFirst_found_length (p : α → Bool) :
    ∀ l : List α, l.any p = true → (removeFirst p l).2.length + 1 = l.length := by
  intro l
  induction l with
  | nil => intro h; cases h
  | cons a l ih =>
    intro h
    by_cases hpa : p a = true
    · unfold removeFirst; rw [if_pos hpa]; simp
    · have hl : l.any p = true := by
        simp only [List.any_cons, Bool.or_eq_true] at h
        rcases h with h | h
        · exact absurd h hpa
        · exact h
      unfold removeFirst
      rw [if_neg hpa]
      simpa using ih hl

theorem mem_setDedupAux : ∀ (l seen : List String) (a : String),
    a ∈ setDedupAux seen l ↔ (a ∈ l ∧ a ∉ seen) := by
  intro l
  induction l with
  | nil => simp [setDedupAux]
  | cons b l ih =>
    intro seen a
    unfold setDedupAux
    split
    · next hb =>
      rw [ih]
      simp only [List.mem_cons]
      constructor
      · rintro ⟨h1, h2⟩
        exact ⟨Or.inr h1, h2⟩
      · rintro ⟨h1 | h1, h2⟩
        · subst h1
          exact absurd hb h2
        · exact ⟨h1, h2⟩
    · next hb =>
      simp only [List.mem_cons, ih]
      constructor
      · rintro (h | ⟨h1, h2⟩)
        · subst h
          exact ⟨Or.inl rfl, hb⟩
        · exact ⟨Or.inr h1, fun hs => h2 (Or.inr hs)⟩
      · rintro ⟨h1 | h1, h2⟩
        · subst h1
          exact Or.inl rfl
        · by_cases hab : a = b
          · subst hab
            exact Or.inl rfl
          · exact Or.inr ⟨h1, fun hs => hs.elim hab h2⟩

theorem setDedupAux_nodup : ∀ (l seen : List String), (setDedupAux seen l).Nodup := by
  intro l
  induction l with
  | nil => intro seen; simp [setDedupAux]
  | cons b l ih =>
    intro seen
    unfold setDedupAux
    split
    · exact ih seen
    · refine List.nodup_cons.mpr ⟨?_, ih (b :: seen)⟩
      intro hmem
      have := (mem_setDedupAux l (b :: seen) b).mp hmem
      exact this.2 (List.mem_cons_self b seen)

theorem mem_setDedup {l : List String} {a : String} : a ∈ setDedup l ↔ a ∈ l := by
  unfold setDedup
  rw [mem_setDedupAux]
  simp

theorem setDedup_nodup (l : List String) : (setDedup l).Nodup :=
  setDedupAux_nodup l []

/-- C1: for every user whose roles (and each role's permissions) have been
expanded, the effectivePermissions returned by the user-detail read is
exactly the deduplicated union of the keys of every permission of every
role of that user: no key occurs twice (each reachable key occurs exactly
once), a key is present iff some expanded role carries a permission with
that key, and a user with zero roles yields an empty effective-permission
array rather than an error. -/
theorem usersGetById_effectivePermissions_union (users : List User)
    (roleColl : List Role) (permColl : List Permission) (id : Nat)
    (d : UserDetail)
    (h : usersGetById users roleColl permColl id = .success 200 d) :
    d.effectivePermissions.Nodup ∧
    (∀ k, k ∈ d.effectivePermissions ↔ ∃ rp ∈ d.roles, ∃ p ∈ rp.2, p.key = k) ∧
    (∀ k ∈ d.effectivePermissions, List.count k d.effectivePermissions = 1) ∧
    (d.user.roles = [] → d.effectivePermissions = []) := by
  unfold usersGetById at h
  cases hf : users.find? (fun u => u.id == id) with
  | none =>
    rw [hf] at h
    cases h
  | some u =>
    rw [hf] at h
    simp only [Outcome.success.injEq] at h
    obtain ⟨-, hd⟩ := h
    subst hd
    refine ⟨setDedup_nodup _, ?_, ?_, ?_⟩
    · intro k
      rw [mem_setDedup]
      simp [List.mem_flatMap, List.mem_map, eq_comm]
    · intro k hk
      exact List.count_eq_one_of_mem (setDedup_nodup _) hk
    · intro hu
      have hu2 : u.roles = [] := hu
      rw [hu2]
      rfl

/-- Witness for C1: a user holding roles Admin = {p1, p2} and
Viewer = {p2, p3}; the user-detail read returns effective permissions
[p1, p2, p3] with p2 not duplicated, and the theorem applies to it. -/
theorem usersGetById_effectivePermissions_union_witness :
    (usersGetById sampleUsers sampleRoles samplePerms 1 = .success 200 sampleDetail) ∧
    sampleDetail.effectivePermissions.Nodup :=
  ⟨by decide,
   (usersGetById_effectivePermissions_union sampleUsers sampleRoles samplePerms 1
     sampleDetail (by decide)).1⟩

theorem length_permsSorted (req : PermsListReq) (fl : List Permission) :
    (permsSorted req fl).length = fl.length := by
  unfold permsSorted
  split
  · exact length_sortDocs _ _ _ _
  · exact length_sortDocs _ _ _ _

theorem permissionsSkip_nonneg {page : Int} (limit : Nat) (hp : 1 ≤ page) :
    0 ≤ permissionsSkip page limit := by
  unfold permissionsSkip
  have h1 : (0 : Int) ≤ page - 1 := by omega
  exact mul_nonneg h1 (Int.natCast_nonneg limit)

theorem permissionsSkip_neg {page : Int} {limit : Nat} (hp : page < 1)
    (hl : 1 ≤ limit) : permissionsSkip page limit < 0 := by
  unfold permissionsSkip
  have h1 : page - 1 < 0 := by omega
  have h2 : (0 : Int) < (limit : Int) := by exact_mod_cast hl
  exact mul_neg_of_neg_of_pos h1 h2

theorem window_take_length {β : Type} (sorted : List β) (total : Nat)
    (hs : sorted.length = total) (page : Int) (limit : Nat)
    (hp : 1 ≤ page) (hl : 1 ≤ limit) :
    findWindow (permissionsSkip page limit) limit sorted =
      .ok ((sorted.drop (permissionsSkip page limit).toNat).take limit) ∧
    (((sorted.drop (permissionsSkip page limit).toNat).take limit).length : Int) =
      min (limit : Int) (max 0 ((total : Int) - (page - 1) * limit)) := by
  have h0 := permissionsSkip_nonneg limit hp
  refine ⟨findWindow_ok h0 hl sorted, ?_⟩
  rw [List.length_take, List.length_drop, hs]
  have hskip : ((permissionsSkip page limit).toNat : Int) = (page - 1) * limit := by
    rw [Int.toNat_of_nonneg h0]
    rfl
  rw [← hskip]
  omega

theorem ceilPages_spec (total limit : Nat) (hl : 1 ≤ limit) :
    ceilPages total limit = total ⌈/⌉ limit ∧
    (ceilPages total limit = 0 ↔ total = 0) := by
  unfold ceilPages
  rw [if_neg (by omega)]
  constructor
  · rw [Nat.ceilDiv_eq_add_pred_div]
  · rw [Nat.div_eq_zero_iff (by omega : 0 < limit)]
    omega

theorem permissionsList_success_shape {req : PermsListReq} {coll : List Permission}
    {env : Envelope Permission}
    (h : permissionsList req coll = .success 200 env) :
    env.total = (coll.filter (permsFilter req)).length ∧
    env.totalPages = ceilPages env.total req.limit ∧
    env.page = req.page ∧
    findWindow (permissionsSkip req.page req.limit) req.limit
      (permsSorted req (coll.filter (permsFilter req))) = .ok env.items := by
  unfold permissionsList at h
  split at h
  · cases h
  · next items hfw =>
    simp only [Outcome.success.injEq] at h
    obtain ⟨-, henv⟩ := h
    subst henv
    exact ⟨rfl, rfl, rfl, hfw⟩

theorem testPlansList_success_shape {req : PagedReq} {coll : List TestPlan}
    {projects : List Project} {env : Envelope (TestPlan × Option Project)}
    (h : testPlansList req coll projects = .success 200 env) :
    env.total = (coll.filter (tpFilter req)).length ∧
    env.totalPages = ceilPages env.total req.limit ∧
    env.page = req.page ∧
    ∃ window, findWindow (permissionsSkip req.page req.limit) req.limit
        (sortDocs TestPlan.getField req.sortBy (!(req.order == "desc"))
          (coll.filter (tpFilter req))) = .ok window ∧
      env.items = window.map (fun t => (t, projects.find? (fun p => p.id == t.project_id))) := by
  unfold testPlansList at h
  split at h
  · cases h
  · next window hfw =>
    simp only [Outcome.success.injEq] at h
    obtain ⟨-, henv⟩ := h
    subst henv
    exact ⟨rfl, rfl, rfl, window, hfw, rfl⟩

theorem testStepsList_success_shape {req : PagedReq} {coll : List TestStep}
    {plans : List TestPlan} {env : Envelope (TestStep × Option TestPlan)}
    (h : testStepsList req coll plans = .success 200 env) :
    env.total = (coll.filter (tsFilter req)).length ∧
    env.totalPages = ceilPages env.total req.limit ∧
    env.page = req.page ∧
    ∃ window, findWindow (permissionsSkip req.page req.limit) req.limit
        (sortDocs TestStep.getField req.sortBy (!(req.order == "desc"))
          (coll.filter (tsFilter req))) = .ok window ∧
      env.items = window.map (fun t => (t, plans.find? (fun p => p.id == t.test_plan_id))) := by
  unfold testStepsList at h
  split at h
  · cases h
  · next window hfw =>
    simp only [Outcome.success.injEq] at h
    obtain ⟨-, henv⟩ := h
    subst henv
    exact ⟨rfl, rfl, rfl, window, hfw, rfl⟩

theorem projectsList_success_shape {req : ProjListReq} {coll : List Project}
    {env : Envelope Project}
    (h : projectsList req coll = .success 200 env) :
    env.total = (coll.filter (projectsFilter req)).length ∧
    env.totalPages = ceilPages env.total req.limit ∧
    env.page = req.page ∧
    findWindow (permissionsSkip req.page req.limit) req.limit
      (projectsSorted req (coll.filter (projectsFilter req))) = .ok env.items := by
  unfold projectsList at h
  split at h
  · cases h
  · next items hfw =>
    simp only [Outcome.success.injEq] at h
    obtain ⟨-, henv⟩ := h
    subst henv
    exact ⟨rfl, rfl, rfl, hfw⟩

/-- C4: for every paginated list operation with limit ≥ 1, the totalPages
field of the returned envelope equals the ceiling of total / limit, and
totalPages is 0 exactly when total is 0; stated for the permissions list
and the test plans list. -/
theorem list_totalPages_is_ceil :
    (∀ (req : PermsListReq) (coll : List Permission) (env : Envelope Permission),
      1 ≤ req.limit → permissionsList req coll = .success 200 env →
      env.totalPages = env.total ⌈/⌉ req.limit ∧ (env.totalPages = 0 ↔ env.total = 0)) ∧
    (∀ (req : PagedReq) (coll : List TestPlan) (projects : List Project)
        (env : Envelope (TestPlan × Option Project)),
      1 ≤ req.limit → testPlansList req coll projects = .success 200 env →
      env.totalPages = env.total ⌈/⌉ req.limit ∧ (env.totalPages = 0 ↔ env.total = 0)) := by
  constructor
  · intro req coll env hl h
    obtain ⟨-, htp, -, -⟩ := permissionsList_success_shape h
    rw [htp]
    exact ceilPages_spec env.total req.limit hl
  · intro req coll projects env hl h
    obtain ⟨-, htp, -, -⟩ := testPlansList_success_shape h
    rw [htp]
    exact ceilPages_spec env.total req.limit hl

/-- Witness for C4: one permission, limit 10: the envelope reports
totalPages = 1 = ceil(1 / 10), nonzero like its total. -/
theorem list_totalPages_is_ceil_witness :
    (1 ≤ 10) ∧
    (permissionsList ⟨1, 10, none, "asc", none, none, false⟩
        [⟨1, "k", "n", "d", false, 0, 0⟩] =
      .success 200 ⟨1, 1, 1, [⟨1, "k", "n", "d", false, 0, 0⟩]⟩) ∧
    ((1 : Nat) = 1 ⌈/⌉ 10 ∧ ((1 : Nat) = 0 ↔ (1 : Nat) = 0)) :=
  ⟨by decide, by decide,
   list_totalPages_is_ceil.1 ⟨1, 10, none, "asc", none, none, false⟩
     [⟨1, "k", "n", "d", false, 0, 0⟩] ⟨1, 1, 1, [⟨1, "k", "n", "d", false, 0, 0⟩]⟩
     (by decide) (by decide)⟩

/-- C5: for every paginated list request with page ≥ 1 and limit ≥ 1, the
number of items in the returned envelope is
min(limit, max(0, total - (page-1)*limit)); stated for the permissions list
and the test steps list. -/
theorem list_item_count_window :
    (∀ (req : PermsListReq) (coll : List Permission) (env : Envelope Permission),
      1 ≤ req.page → 1 ≤ req.limit → permissionsList req coll = .success 200 env →
      (env.items.length : Int) =
        min (req.limit : Int) (max 0 ((env.total : Int) - (req.page - 1) * req.limit))) ∧
    (∀ (req : PagedReq) (coll : List TestStep) (plans : List TestPlan)
        (env : Envelope (TestStep × Option TestPlan)),
      1 ≤ req.page → 1 ≤ req.limit → testStepsList req coll plans = .success 200 env →
      (env.items.length : Int) =
        min (req.limit : Int) (max 0 ((env.total : Int) - (req.page - 1) * req.limit))) := by
  constructor
  · intro req coll env hp hl h
    obtain ⟨htot, -, -, hfw⟩ := permissionsList_success_shape h
    obtain ⟨hfw2, hlen⟩ := window_take_length
      (permsSorted req (coll.filter (permsFilter req)))
      (coll.filter (permsFilter req)).length (length_permsSorted req _)
      req.page req.limit hp hl
    rw [hfw] at hfw2
    injection hfw2 with hW
    rw [htot, hW]
    exact hlen
  · intro req coll plans env hp hl h
    obtain ⟨htot, -, -, window, hfw, hitems⟩ := testStepsList_success_shape h
    obtain ⟨hfw2, hlen⟩ := window_take_length
      (sortDocs TestStep.getField req.sortBy (!(req.order == "desc"))
        (coll.filter (tsFilter req)))
      (coll.filter (tsFilter req)).length (length_sortDocs _ _ _ _)
      req.page req.limit hp hl
    rw [hfw] at hfw2
    injection hfw2 with hW
    rw [htot, hitems, List.length_map, hW]
    exact hlen

/-- Witness for C5: one permission, page 1, limit 10: the envelope holds
1 = min(10, max(0, 1 - 0)) item. -/
theorem list_item_count_window_witness :
    ((1 : Int) ≥ 1) ∧ (1 ≤ 10) ∧
    (permissionsList ⟨1, 10, none, "asc", none, none, false⟩
        [⟨1, "k", "n", "d", false, 0, 0⟩] =
      .success 200 ⟨1, 1, 1, [⟨1, "k", "n", "d", false, 0, 0⟩]⟩) ∧
    ((1 : Int) = min (10 : Int) (max 0 ((1 : Int) - (1 - 1) * 10))) :=
  ⟨by decide, by decide, by decide,
   list_item_count_window.1 ⟨1, 10, none, "asc", none, none, false⟩
     [⟨1, "k", "n", "d", false, 0, 0⟩] ⟨1, 1, 1, [⟨1, "k", "n", "d", false, 0, 0⟩]⟩
     (by decide) (by decide) (by decide)⟩

/-- Counterexample to C6 as stated: with page 0 and limit 10 the permissions
list computes skip = -10, hands that negative skip to the storage layer, and
fails with a 500 storage error, while the same request with page 1 succeeds
and returns the document — so a page below 1 is neither clamped to page 1
nor kept from reaching storage as a negative skip. -/
theorem permissionsList_page_zero_not_page_one :
    permissionsSkip 0 10 = -10 ∧
    permissionsList ⟨0, 10, none, "asc", none, none, false⟩
        [⟨1, "k", "n", "d", false, 0, 0⟩] =
      .failure 500 "Skip value must be non-negative" ∧
    permissionsList ⟨1, 10, none, "asc", none, none, false⟩
        [⟨1, "k", "n", "d", false, 0, 0⟩] =
      .success 200 ⟨1, 1, 1, [⟨1, "k", "n", "d", false, 0, 0⟩]⟩ := by
  refine ⟨by decide, by decide, by decide⟩

/-- C6 amended: a page value below 1 is not clamped: the permissions list
computes skip = (page - 1) * limit as-is, which is negative, and issues it
to the storage layer, so the request fails with a 500 storage error rather
than returning the page-1 window. -/
theorem permissionsList_negative_skip (req : PermsListReq) (coll : List Permission)
    (hp : req.page < 1) (hl : 1 ≤ req.limit) :
    permissionsSkip req.page req.limit < 0 ∧
    permissionsList req coll = .failure 500 "Skip value must be non-negative" := by
  have hneg := permissionsSkip_neg hp hl
  refine ⟨hneg, ?_⟩
  unfold permissionsList
  rw [findWindow_neg hneg]

/-- Witness for C6 amended: page 0, limit 10 on an empty collection. -/
theorem permissionsList_negative_skip_witness :
    ((0 : Int) < 1) ∧ (1 ≤ 10) ∧
    (permissionsSkip 0 10 < 0 ∧
     permissionsList ⟨0, 10, none, "asc", none, none, false⟩ [] =
       .failure 500 "Skip value must be non-negative") :=
  ⟨by decide, by decide,
   permissionsList_negative_skip ⟨0, 10, none, "asc", none, none, false⟩ []
     (by decide) (by decide)⟩

theorem mem_permsSorted {req : PermsListReq} {fl : List Permission} {x : Permission} :
    x ∈ permsSorted req fl ↔ x ∈ fl := by
  unfold permsSorted
  split
  · exact mem_sortDocs
  · exact mem_sortDocs

theorem length_filter_split (p : α → Bool) :
    ∀ l : List α, (l.filter p).length + (l.filter (fun a => !(p a))).length = l.length := by
  intro l
  induction l with
  | nil => rfl
  | cons a l ih =>
    cases hpa : p a
    · simp only [List.filter_cons, hpa, Bool.not_false, if_neg, List.length_cons,
        Bool.false_eq_true, ↓reduceIte]
      omega
    · simp only [List.filter_cons, hpa, Bool.not_true, List.length_cons,
        Bool.false_eq_true, ↓reduceIte]
      omega

/-- Counterexample to C2 as stated: the roles list read applies no
isDeleted filter, so a soft-deleted role is returned by a default-visibility
roles list call (and counted in its result) instead of being excluded. -/
theorem rolesList_returns_soft_deleted :
    rolesList [⟨7, "Ghost", "GHO", true, 0, 0, []⟩] [] =
      .success 200 [(⟨7, "Ghost", "GHO", true, 0, 0, []⟩, [])] ∧
    (⟨7, "Ghost", "GHO", true, 0, 0, []⟩ : Role).isDeleted = true :=
  ⟨by decide, by decide⟩

/-- C2 amended: the permissions, test-plans and test-steps list reads
exclude soft-deleted documents by default — no returned item is deleted and
(in the absence of a field filter) the reported total counts exactly the
non-deleted documents, so total = N - M after soft-deleting M of N — and
the permissions and test-plans single reads refuse soft-deleted documents;
but the projects and roles reads apply no isDeleted filter at all: the
roles list returns every role, deleted or not, and the projects list
counts every document (the Project schema declares no isDeleted field). -/
theorem default_reads_exclude_soft_deleted :
    (∀ (req : PermsListReq) (coll : List Permission) (env : Envelope Permission),
      req.deleted = false → permissionsList req coll = .success 200 env →
      (∀ p ∈ env.items, p.isDeleted = false) ∧
      (req.filterBy = none →
        env.total = (coll.filter (fun p => p.isDeleted == false)).length ∧
        env.total + (coll.filter (fun p => p.isDeleted)).length = coll.length)) ∧
    (∀ (req : PagedReq) (coll : List TestPlan) (projects : List Project)
        (env : Envelope (TestPlan × Option Project)),
      testPlansList req coll projects = .success 200 env →
      (∀ x ∈ env.items, x.1.isDeleted = false) ∧
      (req.filterBy = none →
        env.total = (coll.filter (fun t => t.isDeleted == false)).length ∧
        env.total + (coll.filter (fun t => t.isDeleted)).length = coll.length)) ∧
    (∀ (req : PagedReq) (coll : List TestStep) (plans : List TestPlan)
        (env : Envelope (TestStep × Option TestPlan)),
      testStepsList req coll plans = .success 200 env →
      (∀ x ∈ env.items, x.1.isDeleted = false) ∧
      (req.filterBy = none →
        env.total = (coll.filter (fun t => t.isDeleted == false)).length ∧
        env.total + (coll.filter (fun t => t.isDeleted)).length = coll.length)) ∧
    (∀ (coll : List Permission) (id : Nat) (p : Permission),
      permissionsGetById coll id = .success 200 p → p.isDeleted = false) ∧
    (∀ (coll : List TestPlan) (projects : List Project) (id : Nat)
        (x : TestPlan × Option Project),
      testPlansGetById coll projects id = .success 200 x → x.1.isDeleted = false) ∧
    (∀ (roleColl : List Role) (permColl : List Permission)
        (l : List (Role × List Permission)),
      rolesList roleColl permColl = .success 200 l → l.map Prod.fst = roleColl) ∧
    (∀ (req : ProjListReq) (coll : List Project) (env : Envelope Project),
      req.name = none → req.description = none →
      projectsList req coll = .success 200 env → env.total = coll.length) := by
  refine ⟨?_, ?_, ?_, ?_, ?_, ?_, ?_⟩
  · intro req coll env hdel h
    obtain ⟨htot, -, -, hfw⟩ := permissionsList_success_shape h
    constructor
    · intro p hp
      have h1 : p ∈ coll.filter (permsFilter req) :=
        mem_permsSorted.mp (mem_of_findWindow_ok hfw hp)
      have h2 := (List.mem_filter.mp h1).2
      unfold permsFilter at h2
      rw [Bool.and_eq_true] at h2
      have h3 := h2.2
      rw [hdel] at h3
      simpa using h3
    · intro hfb
      have hcong : coll.filter (permsFilter req) =
          coll.filter (fun p => p.isDeleted == false) := by
        apply List.filter_congr
        intro p _
        unfold permsFilter
        rw [hfb, hdel]
        simp [truthyStr]
      have htot2 : env.total = (coll.filter (fun p => p.isDeleted == false)).length := by
        rw [htot, hcong]
      refine ⟨htot2, ?_⟩
      rw [htot2]
      have := length_filter_split (fun p : Permission => p.isDeleted == false) coll
      have hc : coll.filter (fun p => !(p.isDeleted == false)) =
          coll.filter (fun p => p.isDeleted) := by
        apply List.filter_congr
        intro p _
        cases p.isDeleted <;> rfl
      rw [hc] at this
      exact this
  · intro req coll projects env h
    obtain ⟨htot, -, -, window, hfw, hitems⟩ := testPlansList_success_shape h
    constructor
    · intro x hx
      rw [hitems] at hx
      obtain ⟨t, ht, hxt⟩ := List.mem_map.mp hx
      have h1 : t ∈ coll.filter (tpFilter req) :=
        mem_sortDocs.mp (mem_of_findWindow_ok hfw ht)
      have h2 := (List.mem_filter.mp h1).2
      unfold tpFilter at h2
      rw [Bool.and_eq_true] at h2
      have h3 := h2.1
      rw [← hxt]
      simpa using h3
    · intro hfb
      have hcong : coll.filter (tpFilter req) =
          coll.filter (fun t => t.isDeleted == false) := by
        apply List.filter_congr
        intro t _
        unfold tpFilter
        rw [hfb]
        simp [truthyStr]
      have htot2 : env.total = (coll.filter (fun t => t.isDeleted == false)).length := by
        rw [htot, hcong]
      refine ⟨htot2, ?_⟩
      rw [htot2]
      have := length_filter_split (fun t : TestPlan => t.isDeleted == false) coll
      have hc : coll.filter (fun t => !(t.isDeleted == false)) =
          coll.filter (fun t => t.isDeleted) := by
        apply List.filter_congr
        intro t _
        cases t.isDeleted <;> rfl
      rw [hc] at this
      exact this
  · intro req coll plans env h
    obtain ⟨htot, -, -, window, hfw, hitems⟩ := testStepsList_success_shape h
    constructor
    · intro x hx
      rw [hitems] at hx
      obtain ⟨t, ht, hxt⟩ := List.mem_map.mp hx
      have h1 : t ∈ coll.filter (tsFilter req) :=
        mem_sortDocs.mp (mem_of_findWindow_ok hfw ht)
      have h2 := (List.mem_filter.mp h1).2
      unfold tsFilter at h2
      rw [Bool.and_eq_true] at h2
      have h3 := h2.1
      rw [← hxt]
      simpa using h3
    · intro hfb
      have hcong : coll.filter (tsFilter req) =
          coll.filter (fun t => t.isDeleted == false) := by
        apply List.filter_congr
        intro t _
        unfold tsFilter
        rw [hfb]
        simp [truthyStr]
      have htot2 : env.total = (coll.filter (fun t => t.isDeleted == false)).length := by
        rw [htot, hcong]
      refine ⟨htot2, ?_⟩
      rw [htot2]
      have := length_filter_split (fun t : TestStep => t.isDeleted == false) coll
      have hc : coll.filter (fun t => !(t.isDeleted == false)) =
          coll.filter (fun t => t.isDeleted) := by
        apply List.filter_congr
        intro t _
        cases t.isDeleted <;> rfl
      rw [hc] at this
      exact this
  · intro coll id p h
    unfold permissionsGetById at h
    split at h
    · cases h
    · next q hq =>
      split at h
      · cases h
      · next hdel =>
        simp only [Outcome.success.injEq] at h
        obtain ⟨-, hp⟩ := h
        subst hp
        simpa using hdel
  · intro coll projects id x h
    unfold testPlansGetById at h
    split at h
    · cases h
    · next t ht =>
      have hp := List.find?_some ht
      rw [Bool.and_eq_true] at hp
      simp only [Outcome.success.injEq] at h
      obtain ⟨-, hx⟩ := h
      rw [← hx]
      simpa using hp.2
  · intro roleColl permColl l h
    unfold rolesList at h
    simp only [Outcome.success.injEq] at h
    obtain ⟨-, hl⟩ := h
    rw [← hl, List.map_map]
    exact List.map_id roleColl
  · intro req coll env hname hdesc h
    obtain ⟨htot, -, -, -⟩ := projectsList_success_shape h
    rw [htot]
    have hcong : coll.filter (projectsFilter req) = coll := by
      have : coll.filter (projectsFilter req) = coll.filter (fun _ => true) := by
        apply List.filter_congr
        intro p _
        unfold projectsFilter
        rw [hname, hdesc]
        simp [truthyStr]
      rw [this, List.filter_true]
    rw [hcong]

/-- Witness for C2 amended: a collection of one live and one soft-deleted
permission; the default permissions list returns only the live one and
reports total 1 = 2 - 1. -/
theorem default_reads_exclude_soft_deleted_witness :
    (permissionsList ⟨1, 10, none, "asc", none, none, false⟩
        [⟨1, "ka", "na", "d", false, 0, 0⟩, ⟨2, "kb", "nb", "d", true, 0, 0⟩] =
      .success 200 ⟨1, 1, 1, [⟨1, "ka", "na", "d", false, 0, 0⟩]⟩) ∧
    (∀ p ∈ ([⟨1, "ka", "na", "d", false, 0, 0⟩] : List Permission), p.isDeleted = false) :=
  ⟨by decide,
   ((default_reads_exclude_soft_deleted.1 ⟨1, 10, none, "asc", none, none, false⟩
     [⟨1, "ka", "na", "d", false, 0, 0⟩, ⟨2, "kb", "nb", "d", true, 0, 0⟩]
     ⟨1, 1, 1, [⟨1, "ka", "na", "d", false, 0, 0⟩]⟩ rfl (by decide)).1)⟩

theorem permissionsDelete_coll (now id : Nat) (coll : List Permission) :
    (permissionsDelete now id coll).2 =
      (updateFirst (fun p => p.id == id)
        (fun p => ⟨p.id, p.key, p.name, p.description, true, p.createdAt, now⟩) coll).2 := by
  unfold permissionsDelete
  rcases h : updateFirst (fun p => p.id == id)
      (fun p => ⟨p.id, p.key, p.name, p.description, true, p.createdAt, now⟩) coll with ⟨o, l⟩
  rw [h]
  cases o <;> rfl

theorem testPlansDelete_coll (now id : Nat) (coll : List TestPlan) :
    (testPlansDelete now id coll).2 =
      (updateFirst (fun t => t.id == id)
        (fun t => ⟨t.id, t.name, t.description, t.project_id, t.created_by,
          t.steps, true, t.created_at, now⟩) coll).2 := by
  unfold testPlansDelete
  rcases h : updateFirst (fun t => t.id == id)
      (fun t => ⟨t.id, t.name, t.description, t.project_id, t.created_by,
        t.steps, true, t.created_at, now⟩) coll with ⟨o, l⟩
  rw [h]
  cases o <;> rfl

theorem testStepsDelete_coll (now id : Nat) (coll : List TestStep) :
    (testStepsDelete now id coll).2 =
      (updateFirst (fun t => t.id == id && t.isDeleted == false)
        (fun t => ⟨t.id, t.name, t.description, t.expected_result,
          t.test_plan_id, true, t.created_at, now⟩) coll).2 := by
  unfold testStepsDelete
  rcases h : updateFirst (fun t => t.id == id && t.isDeleted == false)
      (fun t => ⟨t.id, t.name, t.description, t.expected_result,
        t.test_plan_id, true, t.created_at, now⟩) coll with ⟨o, l⟩
  rw [h]
  cases o <;> rfl

theorem rolesDelete_coll (now id : Nat) (coll : List Role) :
    (rolesDelete now id coll).2 =
      (updateFirst (fun r => r.id == id)
        (fun r => ⟨r.id, r.name, r.key, true, r.createdAt, now, r.permissions⟩) coll).2 := by
  unfold rolesDelete
  rcases h : updateFirst (fun r => r.id == id)
      (fun r => ⟨r.id, r.name, r.key, true, r.createdAt, now, r.permissions⟩) coll with ⟨o, l⟩
  rw [h]
  cases o <;> rfl

theorem usersDelete_coll (now id : Nat) (undelete : Bool) (coll : List User) :
    (usersDelete now id undelete coll).2 =
      (updateFirst (fun u => u.id == id && u.isDeleted == undelete)
        (fun u => ⟨u.id, u.name, u.email, u.password, u.roles, u.provider,
          u.oauth_id, !undelete, u.created_at, now⟩) coll).2 := by
  unfold usersDelete
  rcases h : updateFirst (fun u => u.id == id && u.isDeleted == undelete)
      (fun u => ⟨u.id, u.name, u.email, u.password, u.roles, u.provider,
        u.oauth_id, !undelete, u.created_at, now⟩) coll with ⟨o, l⟩
  rw [h]
  cases o <;> rfl

theorem projectsDelete_coll (id : Nat) (coll : List Project) :
    (projectsDelete id coll).2 = (removeFirst (fun p => p.id == id) coll).2 := by
  unfold projectsDelete
  rcases h : removeFirst (fun p => p.id == id) coll with ⟨o, l⟩
  rw [h]
  cases o <;> rfl

/-- Counterexample to C3 as stated: the projects delete route calls
findByIdAndDelete, which physically removes the document: deleting the only
project leaves an empty collection — the document does not remain present
with a flipped isDeleted flag. -/
theorem projectsDelete_removes_document :
    projectsDelete 1 [⟨1, "Alpha", "d", 0, 0⟩] =
      (.success 200 "Project deleted successfully", []) := by decide

/-- C3 amended: every delete operation except the projects delete is a soft
delete: the permissions, test-plan, test-step, role and user deletes leave
the collection the same size and the matched document present with
isDeleted = true; the projects delete physically removes the matched
document, shrinking the collection by one. -/
theorem deletes_are_soft_except_projects :
    (∀ (now id : Nat) (coll : List Permission),
      coll.any (fun p => p.id == id) = true →
      (permissionsDelete now id coll).2.length = coll.length ∧
      ∃ p ∈ (permissionsDelete now id coll).2, p.id = id ∧ p.isDeleted = true) ∧
    (∀ (now id : Nat) (coll : List TestPlan),
      coll.any (fun t => t.id == id) = true →
      (testPlansDelete now id coll).2.length = coll.length ∧
      ∃ t ∈ (testPlansDelete now id coll).2, t.id = id ∧ t.isDeleted = true) ∧
    (∀ (now id : Nat) (coll : List TestStep),
      coll.any (fun t => t.id == id && t.isDeleted == false) = true →
      (testStepsDelete now id coll).2.length = coll.length ∧
      ∃ t ∈ (testStepsDelete now id coll).2, t.id = id ∧ t.isDeleted = true) ∧
    (∀ (now id : Nat) (coll : List Role),
      coll.any (fun r => r.id == id) = true →
      (rolesDelete now id coll).2.length = coll.length ∧
      ∃ r ∈ (rolesDelete now id coll).2, r.id = id ∧ r.isDeleted = true) ∧
    (∀ (now id : Nat) (coll : List User),
      coll.any (fun u => u.id == id && u.isDeleted == false) = true →
      (usersDelete now id false coll).2.length = coll.length ∧
      ∃ u ∈ (usersDelete now id false coll).2, u.id = id ∧ u.isDeleted = true) ∧
    (∀ (id : Nat) (coll : List Project),
      coll.any (fun p => p.id == id) = true →
      (projectsDelete id coll).2.length + 1 = coll.length) := by
  refine ⟨?_, ?_, ?_, ?_, ?_, ?_⟩
  · intro now id coll hany
    have hsnd := permissionsDelete_coll now id coll
    obtain ⟨a, ha, hpa, h1, h2⟩ := updateFirst_found _ _ coll hany
    refine ⟨by rw [hsnd, updateFirst_length], ?_⟩
    refine ⟨_, by rw [hsnd]; exact h2, ?_, rfl⟩
    simpa using hpa
  · intro now id coll hany
    have hsnd := testPlansDelete_coll now id coll
    obtain ⟨a, ha, hpa, h1, h2⟩ := updateFirst_found _ _ coll hany
    refine ⟨by rw [hsnd, updateFirst_length], ?_⟩
    refine ⟨_, by rw [hsnd]; exact h2, ?_, rfl⟩
    simpa using hpa
  · intro now id coll hany
    have hsnd := testStepsDelete_coll now id coll
    obtain ⟨a, ha, hpa, h1, h2⟩ := updateFirst_found _ _ coll hany
    rw [Bool.and_eq_true] at hpa
    refine ⟨by rw [hsnd, updateFirst_length], ?_⟩
    refine ⟨_, by rw [hsnd]; exact h2, ?_, rfl⟩
    simpa using hpa.1
  · intro now id coll hany
    have hsnd := rolesDelete_coll now id coll
    obtain ⟨a, ha, hpa, h1, h2⟩ := updateFirst_found _ _ coll hany
    refine ⟨by rw [hsnd, updateFirst_length], ?_⟩
    refine ⟨_, by rw [hsnd]; exact h2, ?_, rfl⟩
    simpa using hpa
  · intro now id coll hany
    have hsnd := usersDelete_coll now id false coll
    obtain ⟨a, ha, hpa, h1, h2⟩ := updateFirst_found _ _ coll hany
    rw [Bool.and_eq_true] at hpa
    refine ⟨by rw [hsnd, updateFirst_length], ?_⟩
    refine ⟨_, by rw [hsnd]; exact h2, ?_, rfl⟩
    simpa using hpa.1
  · intro id coll hany
    rw [projectsDelete_coll]
    exact removeFirst_found_length _ coll hany

/-- Witness for C3 amended: soft-deleting the one permission keeps the
collection at length 1. -/
theorem deletes_are_soft_except_projects_witness :
    (([⟨1, "k", "n", "d", false, 0, 0⟩] : List Permission).any (fun p => p.id == 1) = true) ∧
    (permissionsDelete 5 1 [⟨1, "k", "n", "d", false, 0, 0⟩]).2.length =
      ([⟨1, "k", "n", "d", false, 0, 0⟩] : List Permission).length :=
  ⟨by decide,
   (deletes_are_soft_except_projects.1 5 1 [⟨1, "k", "n", "d", false, 0, 0⟩] (by decide)).1⟩

/-- C7: creating a Permission whose unique-constrained key or name collides
with an existing document fails with the 400 duplicate response — a
conflict distinct from the generic 500 server error — and the failed create
leaves the collection unchanged: exactly one document with that key still
exists afterwards. -/
theorem permissionsCreate_duplicate_conflict (now newId : Nat)
    (k n dsc : String) (coll : List Permission)
    (hk : k ≠ "") (hn : n ≠ "") (hd : dsc ≠ "")
    (hdup : coll.any (fun p => p.key == k || p.name == n) = true)
    (hone : (coll.filter (fun p => p.key == k)).length = 1) :
    permissionsCreate now newId ⟨some k, some n, some dsc⟩ coll =
      (.failure 400 "Permission key and name must be unique", coll) ∧
    (∀ m, (permissionsCreate now newId ⟨some k, some n, some dsc⟩ coll).1 ≠
      .failure 500 m) ∧
    ((permissionsCreate now newId ⟨some k, some n, some dsc⟩ coll).2.filter
      (fun p => p.key == k)).length = 1 := by
  have hres : permissionsCreate now newId ⟨some k, some n, some dsc⟩ coll =
      (.failure 400 "Permission key and name must be unique", coll) := by
    unfold permissionsCreate
    rw [if_neg (by simp [truthyStr, hk, hn]), if_neg (by simp [truthyStr, hd])]
    simp [hdup]
  refine ⟨hres, ?_, ?_⟩
  · intro m
    rw [hres]
    simp
  · rw [hres]
    exact hone

/-- Witness for C7: the collection holds one permission with key vwprj; a
second create with the same key fails with the duplicate conflict and the
collection still holds exactly one vwprj document. -/
theorem permissionsCreate_duplicate_conflict_witness :
    ("vwprj" ≠ "") ∧ ("view2" ≠ "") ∧ ("dd" ≠ "") ∧
    (([⟨1, "vwprj", "view", "d", false, 0, 0⟩] : List Permission).any
      (fun p => p.key == "vwprj" || p.name == "view2") = true) ∧
    ((([⟨1, "vwprj", "view", "d", false, 0, 0⟩] : List Permission).filter
      (fun p => p.key == "vwprj")).length = 1) ∧
    (permissionsCreate 9 2 ⟨some "vwprj", some "view2", some "dd"⟩
        [⟨1, "vwprj", "view", "d", false, 0, 0⟩] =
      (.failure 400 "Permission key and name must be unique",
       [⟨1, "vwprj", "view", "d", false, 0, 0⟩])) :=
  ⟨by decide, by decide, by decide, by decide, by decide,
   (permissionsCreate_duplicate_conflict 9 2 "vwprj" "view2" "dd"
     [⟨1, "vwprj", "view", "d", false, 0, 0⟩]
     (by decide) (by decide) (by decide) (by decide) (by decide)).1⟩

theorem filter_contains_ids_nodup (permColl : List Permission) (ids : List Nat)
    (hnd : (permColl.map Permission.id).Nodup) :
    ((permColl.filter (fun d => ids.contains d.id)).map Permission.id).Nodup :=
  ((List.filter_sublist permColl).map Permission.id).nodup hnd

theorem filter_contains_length_lt (permColl : List Permission) (ids : List Nat)
    (hnd : (permColl.map Permission.id).Nodup) (i : Nat) (hi : i ∈ ids)
    (hmiss : i ∉ permColl.map Permission.id) :
    (permColl.filter (fun d => ids.contains d.id)).length < ids.length := by
  set docsIds := (permColl.filter (fun d => ids.contains d.id)).map Permission.id with hdi
  have hnodup : docsIds.Nodup := filter_contains_ids_nodup permColl ids hnd
  have hsub : docsIds.toFinset ⊆ ids.toFinset.erase i := by
    intro x hx
    rw [List.mem_toFinset] at hx
    obtain ⟨d, hd, hdx⟩ := List.mem_map.mp hx
    have hmem := List.mem_filter.mp hd
    have hxin : x ∈ ids := by
      have := hmem.2
      rw [hdx] at this
      simpa using this
    have hxne : x ≠ i := by
      intro hxe
      subst hxe
      exact hmiss (List.mem_map.mpr ⟨d, hmem.1, hdx⟩)
    exact Finset.mem_erase.mpr ⟨hxne, List.mem_toFinset.mpr hxin⟩
  have h1 : docsIds.length = docsIds.toFinset.card :=
    (List.toFinset_card_of_nodup hnodup).symm
  have h2 : docsIds.toFinset.card ≤ (ids.toFinset.erase i).card :=
    Finset.card_le_card hsub
  have h3 : (ids.toFinset.erase i).card = ids.toFinset.card - 1 :=
    Finset.card_erase_of_mem (List.mem_toFinset.mpr hi)
  have h4 : ids.toFinset.card ≤ ids.length := List.toFinset_card_le ids
  have h5 : 0 < ids.toFinset.card :=
    Finset.card_pos.mpr ⟨i, List.mem_toFinset.mpr hi⟩
  have h6 : docsIds.length = (permColl.filter (fun d => ids.contains d.id)).length := by
    rw [hdi, List.length_map]
  omega

theorem filter_contains_length_eq (permColl : List Permission) (ids : List Nat)
    (hnd : (permColl.map Permission.id).Nodup) (hids : ids.Nodup)
    (hall : ∀ i ∈ ids, i ∈ permColl.map Permission.id) :
    (permColl.filter (fun d => ids.contains d.id)).length = ids.length := by
  set docsIds := (permColl.filter (fun d => ids.contains d.id)).map Permission.id with hdi
  have hnodup : docsIds.Nodup := filter_contains_ids_nodup permColl ids hnd
  have hset : docsIds.toFinset = ids.toFinset := by
    apply Finset.Subset.antisymm
    · intro x hx
      rw [List.mem_toFinset] at hx
      obtain ⟨d, hd, hdx⟩ := List.mem_map.mp hx
      have hmem := List.mem_filter.mp hd
      apply List.mem_toFinset.mpr
      have := hmem.2
      rw [hdx] at this
      simpa using this
    · intro x hx
      rw [List.mem_toFinset] at hx
      obtain ⟨d, hd, hdx⟩ := List.mem_map.mp (hall x hx)
      apply List.mem_toFinset.mpr
      apply List.mem_map.mpr
      refine ⟨d, List.mem_filter.mpr ⟨hd, ?_⟩, hdx⟩
      rw [hdx]
      simpa using hx
  have h1 : docsIds.length = docsIds.toFinset.card :=
    (List.toFinset_card_of_nodup hnodup).symm
  have h2 : ids.toFinset.card = ids.length := List.toFinset_card_of_nodup hids
  have h6 : docsIds.length = (permColl.filter (fun d => ids.contains d.id)).length := by
    rw [hdi, List.length_map]
  rw [← h6, h1, hset, h2]

/-- Counterexample to C8 as stated: the role-create reference check queries
the referenced permissions by id only, never consulting isDeleted, so a
role naming a soft-deleted permission is accepted and written instead of
being rejected: the reference check is an existence check, not an
existing-and-non-deleted check. -/
theorem rolesCreate_accepts_soft_deleted_reference :
    (⟨1, "kk", "nn", "dd", true, 0, 0⟩ : Permission).isDeleted = true ∧
    rolesCreate 0 5 ⟨some "Tester", some "TESTR", some "QA role", some [1]⟩
        [⟨1, "kk", "nn", "dd", true, 0, 0⟩] [] =
      (.success 201 ⟨5, "Tester", "TESTR", false, 0, 0, [1]⟩,
       [⟨5, "Tester", "TESTR", false, 0, 0, [1]⟩]) :=
  ⟨by decide, by decide⟩

/-- C8 amended: every embedded reference check verifies only that each
referenced id resolves to an existing document, ignoring the referent's
isDeleted flag; a reference that resolves to no document rejects the whole
operation with a 400 validation error and no write.  In particular a
test-plan create with a nonexistent project_id fails with the validation
error and creates no document, while a resolving project_id (and, for
roles, resolving permission ids — soft-deleted or not) is accepted. -/
theorem reference_checks_existence_only :
    (∀ (now newId : Nat) (req : TPCreateReq) (projects : List Project)
        (coll : List TestPlan) (pid : Nat),
      truthyStr req.name = true → req.project_id = some pid →
      projects.find? (fun p => p.id == pid) = none →
      testPlansCreate now newId req projects coll =
        (.failure 400 "Invalid project ID", coll)) ∧
    (∀ (now newId : Nat) (nm kk dsc : String) (ids : List Nat)
        (permColl : List Permission) (coll : List Role),
      nm ≠ "" → kk ≠ "" → dsc ≠ "" → ids ≠ [] →
      (permColl.map Permission.id).Nodup →
      (∃ i ∈ ids, i ∉ permColl.map Permission.id) →
      rolesCreate now newId ⟨some nm, some kk, some dsc, some ids⟩ permColl coll =
        (.failure 400 "Invalid permissions provided", coll)) ∧
    (∀ (now newId : Nat) (nm kk dsc : String) (ids : List Nat)
        (permColl : List Permission) (coll : List Role),
      nm ≠ "" → kk ≠ "" → dsc ≠ "" → ids ≠ [] → ids.Nodup →
      (permColl.map Permission.id).Nodup →
      (∀ i ∈ ids, i ∈ permColl.map Permission.id) →
      coll.any (fun r => r.name == nm || r.key == kk) = false →
      rolesCreate now newId ⟨some nm, some kk, some dsc, some ids⟩ permColl coll =
        (.success 201 ⟨newId, nm, kk, false, now, now, ids⟩,
         coll ++ [⟨newId, nm, kk, false, now, now, ids⟩])) ∧
    (∀ (now newId : Nat) (nm dsc : String) (pid : Nat) (steps : Option (List Nat))
        (projects : List Project) (coll : List TestPlan) (proj : Project),
      nm ≠ "" → projects.find? (fun p => p.id == pid) = some proj →
      testPlansCreate now newId ⟨some nm, some dsc, some pid, none, steps⟩ projects coll =
        (.success 201 ⟨newId, nm, dsc, pid, none, steps.getD [], false, now, now⟩,
         coll ++ [⟨newId, nm, dsc, pid, none, steps.getD [], false, now, now⟩])) := by
  refine ⟨?_, ?_, ?_, ?_⟩
  · intro now newId req projects coll pid hname hpid hfind
    unfold testPlansCreate
    rw [if_neg (by simp [hname, hpid])]
    simp only [hpid, Option.getD_some]
    rw [hfind]
  · intro now newId nm kk dsc ids permColl coll hnm hkk hdsc hne hnd ⟨i, hi, hmiss⟩
    unfold rolesCreate
    rw [if_neg (by simp [truthyStr, hnm, hkk, hdsc, hne])]
    have hlt := filter_contains_length_lt permColl ids hnd i hi hmiss
    rw [if_pos (by simp only [Option.getD_some]; simpa using Nat.ne_of_lt hlt)]
  · intro now newId nm kk dsc ids permColl coll hnm hkk hdsc hne hids hnd hall hdup
    unfold rolesCreate
    rw [if_neg (by simp [truthyStr, hnm, hkk, hdsc, hne])]
    have heq := filter_contains_length_eq permColl ids hnd hids hall
    rw [if_neg (by simp only [Option.getD_some]; simpa using heq)]
    rw [if_neg (by simp [hdup])]
    rfl
  · intro now newId nm dsc pid steps projects coll proj hnm hfind
    unfold testPlansCreate
    rw [if_neg (by simp [truthyStr, hnm])]
    simp only [Option.getD_some]
    rw [hfind]

/-- Witness for C8 amended: creating a test plan against an empty project
collection fails with the validation error and writes nothing. -/
theorem reference_checks_existence_only_witness :
    (truthyStr (some "Smoke") = true) ∧
    (([] : List Project).find? (fun p => p.id == 3) = none) ∧
    (testPlansCreate 0 9 ⟨some "Smoke", some "d", some 3, none, none⟩ [] [] =
      (.failure 400 "Invalid project ID", [])) :=
  ⟨by decide, by decide,
   reference_checks_existence_only.1 0 9 ⟨some "Smoke", some "d", some 3, none, none⟩
     [] [] 3 (by decide) (by decide) (by decide)⟩

theorem updateFirst_fst_shape (p : α → Bool) (f : α → α) :
    ∀ (l l2 : List α) (x : α), updateFirst p f l = (some x, l2) → ∃ a, x = f a := by
  intro l
  induction l with
  | nil =>
    intro l2 x h
    simp [updateFirst] at h
  | cons a l ih =>
    intro l2 x h
    unfold updateFirst at h
    split at h
    · simp only [Prod.mk.injEq, Option.some.injEq] at h
      exact ⟨a, h.1.symm⟩
    · simp only [Prod.mk.injEq] at h
      obtain ⟨h1, -⟩ := h
      rcases hu : updateFirst p f l with ⟨o, l3⟩
      rw [hu] at h1
      cases o with
      | none => cases h1
      | some y =>
        obtain ⟨b, hb⟩ := ih l3 y hu
        injection h1 with hxy
        subst hxy
        exact ⟨b, hb⟩

theorem projectsUpdate_coll (id : Nat) (req : ProjUpdateReq) (coll : List Project) :
    (projectsUpdate id req coll).2 =
      (updateFirst (fun p => p.id == id)
        (fun p => ⟨p.id,
          if truthyStr req.name then req.name.getD "" else p.name,
          if truthyStr req.description then req.description.getD "" else p.description,
          p.created_at, p.updated_at⟩) coll).2 := by
  unfold projectsUpdate
  rcases h : updateFirst (fun p => p.id == id)
      (fun p => ⟨p.id,
        if truthyStr req.name then req.name.getD "" else p.name,
        if truthyStr req.description then req.description.getD "" else p.description,
        p.created_at, p.updated_at⟩) coll with ⟨o, l⟩
  rw [h]
  cases o <;> rfl

/-- Counterexample to C9 as stated: a successful project update leaves the
stored document with its old updated_at (5): the handler passes only the
supplied fields to findByIdAndUpdate, the Project schema has no timestamps
option, and update queries run no save middleware, so the timestamp is not
refreshed by the mutating write. -/
theorem projectsUpdate_does_not_refresh_timestamp :
    projectsUpdate 1 ⟨some "Beta", none⟩ [⟨1, "Alpha", "d", 3, 5⟩] =
      (.success 200 ⟨1, "Beta", "d", 3, 5⟩, [⟨1, "Beta", "d", 3, 5⟩]) := by decide

/-- C9 amended: the permissions update, the user update and every soft
delete explicitly set the document's updatedAt / updated_at to the current
time, but the projects update never touches updated_at: the timestamps of
the whole project collection are unchanged by any project update. -/
theorem mutating_writes_refresh_timestamp_except_projects :
    (∀ (now id : Nat) (req : PermUpdateReq) (coll : List Permission)
        (out : Permission) (l : List Permission),
      permissionsUpdate now id req coll = (.success 200 out, l) →
      out.updatedAt = now) ∧
    (∀ (now id : Nat) (req : UserUpdateReq) (coll : List User)
        (out : User) (l : List User),
      usersUpdate now id req coll = (.success 200 out, l) →
      out.updated_at = now) ∧
    (∀ (now id : Nat) (coll : List Permission) (out : Permission) (l : List Permission),
      permissionsDelete now id coll = (.success 200 out, l) → out.updatedAt = now) ∧
    (∀ (now id : Nat) (coll : List TestPlan) (out : TestPlan) (l : List TestPlan),
      testPlansDelete now id coll = (.success 200 out, l) → out.updated_at = now) ∧
    (∀ (now id : Nat) (coll : List TestStep) (out : TestStep) (l : List TestStep),
      testStepsDelete now id coll = (.success 200 out, l) → out.updated_at = now) ∧
    (∀ (now id : Nat) (coll : List Role) (out : Role) (l : List Role),
      rolesDelete now id coll = (.success 200 out, l) → out.updatedAt = now) ∧
    (∀ (id : Nat) (req : ProjUpdateReq) (coll : List Project),
      (projectsUpdate id req coll).2.map Project.updated_at =
        coll.map Project.updated_at) := by
  refine ⟨?_, ?_, ?_, ?_, ?_, ?_, ?_⟩
  · intro now id req coll out l h
    unfold permissionsUpdate at h
    split at h
    · simp at h
    · split at h
      · simp at h
      · split at h
        · simp at h
        · rename_i p l2 heq
          simp only [Prod.mk.injEq, Outcome.success.injEq] at h
          obtain ⟨⟨-, hp⟩, -⟩ := h
          obtain ⟨a, ha⟩ := updateFirst_fst_shape _ _ coll l2 p heq
          rw [← hp, ha]
  · intro now id req coll out l h
    unfold usersUpdate at h
    split at h
    · simp at h
    · split at h
      · simp at h
      · split at h
        · simp at h
        · rename_i p l2 heq
          simp only [Prod.mk.injEq, Outcome.success.injEq] at h
          obtain ⟨⟨-, hp⟩, -⟩ := h
          obtain ⟨a, ha⟩ := updateFirst_fst_shape _ _ coll l2 p heq
          rw [← hp, ha]
  · intro now id coll out l h
    unfold permissionsDelete at h
    split at h
    · simp at h
    · rename_i p l2 heq
      simp only [Prod.mk.injEq, Outcome.success.injEq] at h
      obtain ⟨⟨-, hp⟩, -⟩ := h
      obtain ⟨a, ha⟩ := updateFirst_fst_shape _ _ coll l2 p heq
      rw [← hp, ha]
  · intro now id coll out l h
    unfold testPlansDelete at h
    split at h
    · simp at h
    · rename_i p l2 heq
      simp only [Prod.mk.injEq, Outcome.success.injEq] at h
      obtain ⟨⟨-, hp⟩, -⟩ := h
      obtain ⟨a, ha⟩ := updateFirst_fst_shape _ _ coll l2 p heq
      rw [← hp, ha]
  · intro now id coll out l h
    unfold testStepsDelete at h
    split at h
    · simp at h
    · rename_i p l2 heq
      simp only [Prod.mk.injEq, Outcome.success.injEq] at h
      obtain ⟨⟨-, hp⟩, -⟩ := h
      obtain ⟨a, ha⟩ := updateFirst_fst_shape _ _ coll l2 p heq
      rw [← hp, ha]
  · intro now id coll out l h
    unfold rolesDelete at h
    split at h
    · simp at h
    · rename_i p l2 heq
      simp only [Prod.mk.injEq, Outcome.success.injEq] at h
      obtain ⟨⟨-, hp⟩, -⟩ := h
      obtain ⟨a, ha⟩ := updateFirst_fst_shape _ _ coll l2 p heq
      rw [← hp, ha]
  · intro id req coll
    rw [projectsUpdate_coll]
    exact updateFirst_map_invariant (fun p => p.id == id)
      (fun p => ⟨p.id,
        if truthyStr req.name then req.name.getD "" else p.name,
        if truthyStr req.description then req.description.getD "" else p.description,
        p.created_at, p.updated_at⟩) Project.updated_at (fun a => rfl) coll

/-- Witness for C9 amended: soft-deleting the one permission at time 5
stamps updatedAt = 5 on the returned document. -/
theorem mutating_writes_refresh_timestamp_except_projects_witness :
    (permissionsDelete 5 1 [⟨1, "k", "n", "d", false, 0, 0⟩] =
      (.success 200 ⟨1, "k", "n", "d", true, 0, 5⟩, [⟨1, "k", "n", "d", true, 0, 5⟩])) ∧
    (⟨1, "k", "n", "d", true, 0, 5⟩ : Permission).updatedAt = 5 :=
  ⟨by decide,
   mutating_writes_refresh_timestamp_except_projects.2.2.1 5 1
     [⟨1, "k", "n", "d", false, 0, 0⟩] ⟨1, "k", "n", "d", true, 0, 5⟩
     [⟨1, "k", "n", "d", true, 0, 5⟩] (by decide)⟩

/-- C10: the test-plan route module never imports the User model and the
users route module never imports the Role model, so the reference-validation
branches that mention them throw instead of checking.  A test-plan create
that supplies created_by never succeeds and never writes, and — once the
earlier required-field and project checks pass — fails with the generic 500
ReferenceError; a user update that supplies a roles array always fails with
the generic 500 ReferenceError and applies no write. -/
theorem unbound_model_reference_generic_error :
    (∀ (now newId : Nat) (req : TPCreateReq) (projects : List Project)
        (coll : List TestPlan),
      req.created_by ≠ none →
      (testPlansCreate now newId req projects coll).2 = coll ∧
      ∀ (s : Nat) (b : TestPlan),
        (testPlansCreate now newId req projects coll).1 ≠ .success s b) ∧
    (∀ (now newId : Nat) (req : TPCreateReq) (projects : List Project)
        (coll : List TestPlan) (pid : Nat) (proj : Project),
      truthyStr req.name = true → req.project_id = some pid →
      projects.find? (fun p => p.id == pid) = some proj →
      req.created_by ≠ none →
      testPlansCreate now newId req projects coll =
        (.failure 500 "User is not defined", coll)) ∧
    (∀ (now id : Nat) (req : UserUpdateReq) (coll : List User),
      req.roles ≠ none →
      usersUpdate now id req coll = (.failure 500 "Role is not defined", coll)) := by
  refine ⟨?_, ?_, ?_⟩
  · intro now newId req projects coll hcb
    cases hc : req.created_by with
    | none => exact absurd hc hcb
    | some u =>
      unfold testPlansCreate
      split
      · exact ⟨rfl, fun s b h => by simp at h⟩
      · simp only [hc]
        rcases hf : projects.find? (fun p => p.id == req.project_id.getD 0) with _ | proj
        · rw [hf]
          exact ⟨rfl, fun s b h => by simp at h⟩
        · rw [hf]
          exact ⟨rfl, fun s b h => by simp at h⟩
  · intro now newId req projects coll pid proj hname hpid hfind hcb
    cases hc : req.created_by with
    | none => exact absurd hc hcb
    | some u =>
      unfold testPlansCreate
      rw [if_neg (by simp [hname, hpid])]
      simp only [hpid, Option.getD_some, hc]
      rw [hfind]
  · intro now id req coll hroles
    cases hr : req.roles with
    | none => exact absurd hr hroles
    | some rs =>
      unfold usersUpdate
      rw [if_neg (by simp [hr])]
      simp only [hr]

/-- Witness for C10: a user update supplying a roles array fails with the
generic 500 and leaves the (empty) collection untouched. -/
theorem unbound_model_reference_generic_error_witness :
    ((some ([3] : List Nat)) ≠ none) ∧
    (usersUpdate 0 1 ⟨none, none, some [3], none⟩ [] =
      (.failure 500 "Role is not defined", [])) :=
  ⟨by decide,
   unbound_model_reference_generic_error.2.2 0 1 ⟨none, none, some [3], none⟩ []
     (by decide)⟩

end Qualest
